import Mathlib

/-!
Verification of the EVM state / oracle indexing subsystem against its
natural-language specification.

The development shallowly embeds the relevant Rust functions:

* `lib/ain-ocean/src/indexer/oracle.rs` — the oracle price aggregator
  (interval buckets, forward/backward incremental means, `SetOracleData`
  aggregation, `UpdateOracle` index/invalidate);
* `lib/ain-evm/src/evm.rs` — the EVM handler (`sub_balance`,
  `validate_raw_tx`, `logs_bloom`, `get_account` / `get_balance` /
  `get_nonce`);
* `lib/ain-evm/src/storage/block_store.rs` — the block store and its
  `disconnect_latest_block` rollback.

Conventions: `rust_decimal::Decimal` values are embedded as `ℚ` (the
concrete inputs used in the theorems are small enough that the 96-bit
mantissa and 28-digit rounding of `Decimal` are exact, and division by
zero — which panics in `rust_decimal` — is flagged in comments where it
can occur); `i32`/`i64`/`u8` scalars are embedded as `ℤ` with explicit
saturation where the source saturates; hashes, addresses, tokens and
currencies are opaque and embedded as `Nat`.
-/

namespace Ain

/-! ### Decimal helpers

`rust_decimal`'s `ToPrimitive::to_i32` truncates the fractional part
toward zero and returns `None` when the integer part does not fit in
`i32`; the source wraps it in `unwrap_or_else` with a saturation
default. -/

/-- Truncation toward zero of a rational, as `Decimal::to_i32` does
before the range check. -/
def decimalTruncInt (q : ℚ) : ℤ :=
  if 0 ≤ q then q.floor else q.ceil

/-- The value of `to_i32().unwrap_or_else(|| dflt)`: the truncated value
when it fits in `i32`, the supplied default otherwise. -/
def toI32OrElse (q : ℚ) (dflt : ℤ) : ℤ :=
  let t := decimalTruncInt q
  if -(2 ^ 31) ≤ t ∧ t ≤ 2 ^ 31 - 1 then t else dflt

/-! ### Oracle interval aggregation (`indexer/oracle.rs`)

Embeds `forward_aggregate_value`, `forward_aggregate_number`,
`backward_aggregate_value`, `backward_aggregate_number`,
`process_inner_values`, the bucket-selection logic of
`index_interval_mapper`, and the bucket rewrite/delete logic of
`invalidate_oracle_interval`.  Bucket `amount`s travel through the
store as decimal strings in the source; the string round-trip is the
identity on the decimal values involved and is elided. -/

/-- Block context fields used by the oracle indexer (`BlockContext`). -/
structure BlockCtx where
  height : ℤ
  time : ℤ
  medianTime : ℤ
  deriving DecidableEq, Repr

/-- The `aggregated` payload of an `OraclePriceAggregatedInterval` row. -/
structure IntervalAggregated where
  amount : ℚ
  weightage : ℤ
  count : ℤ
  oraclesActive : ℤ
  oraclesTotal : ℤ
  deriving DecidableEq, Repr

/-- An `OraclePriceAggregatedInterval` row (the string `id`/`key`/`sort`
fields are determined by the remaining fields and are elided). -/
structure IntervalBucket where
  token : Nat
  currency : Nat
  aggregated : IntervalAggregated
  blockHeight : ℤ
  blockMedianTime : ℤ
  deriving DecidableEq, Repr

/-- The `aggregated` payload of an `OraclePriceAggregated` row, the new
scalar values absorbed into (or removed from) an interval bucket. -/
structure AggregatedData where
  amount : ℚ
  weightage : ℤ
  oraclesActive : ℤ
  oraclesTotal : ℤ
  deriving DecidableEq, Repr

/-- `forward_aggregate_value(last_value, new_value, count)`:
`(last * count + new) / (count + 1)` over `Decimal`. -/
def forwardAggregateValue (lastValue newValue : ℚ) (count : ℤ) : ℚ :=
  (lastValue * count + newValue) / ((count : ℚ) + 1)

/-- `forward_aggregate_number(last_value, new_value, count)`: the same
mean over `Decimal`, truncated back to `i32`, saturating to `i32::MAX`. -/
def forwardAggregateNumber (lastValue newValue count : ℤ) : ℤ :=
  toI32OrElse (((lastValue : ℚ) * count + newValue) / ((count : ℚ) + 1)) (2 ^ 31 - 1)

/-- `backward_aggregate_value(last_value, new_value, count)`:
`(last * count - new) / (count - 1)` over `Decimal`.  (When `count = 1`
the source divides by zero, which panics in `rust_decimal`; the `ℚ`
embedding returns `0` there.) -/
def backwardAggregateValue (lastValue newValue : ℚ) (count : ℤ) : ℚ :=
  (lastValue * count - newValue) / ((count : ℚ) - 1)

/-- `backward_aggregate_number(last_value, new_value, count)`: the same,
truncated back to `i32`, saturating to `0`. -/
def backwardAggregateNumber (lastValue newValue count : ℤ) : ℤ :=
  toI32OrElse (((lastValue : ℚ) * count - newValue) / ((count : ℚ) - 1)) 0

/-- `process_inner_values(previous_data, aggregated)`: the bucket row
written when an aggregate is folded into an existing in-window bucket.
Note the source passes the already incremented `count` to the forward
mean for `amount` and `weightage`, but the old `lastprice.count` for the
two oracle counters. -/
def processInnerValues (previousData : IntervalBucket) (aggregated : AggregatedData) :
    IntervalBucket :=
  let lastprice := previousData.aggregated
  let count := lastprice.count + 1
  { previousData with
    aggregated :=
      { amount := forwardAggregateValue lastprice.amount aggregated.amount count
        weightage := forwardAggregateNumber lastprice.weightage aggregated.weightage count
        count := count
        oraclesActive :=
          forwardAggregateNumber lastprice.oraclesActive aggregated.oraclesActive lastprice.count
        oraclesTotal :=
          forwardAggregateNumber lastprice.oraclesTotal aggregated.oraclesTotal lastprice.count } }

/-- The fresh bucket opened by `index_interval_mapper` when no bucket
exists or the previous bucket is out of window. -/
def newIntervalBucket (token currency : Nat) (block : BlockCtx)
    (aggregated : AggregatedData) : IntervalBucket :=
  { token := token
    currency := currency
    aggregated :=
      { amount := aggregated.amount
        weightage := aggregated.weightage
        count := 1
        oraclesActive := aggregated.oraclesActive
        oraclesTotal := aggregated.oraclesTotal }
    blockHeight := block.height
    blockMedianTime := block.medianTime }

/-- `index_interval_mapper`: the bucket row written for one interval,
given the most recent bucket of the `(token, currency, interval)` key
(`none` when the `by_key` lookup is empty).  A new bucket is opened when
there is none or `block.median_time - bucket.block.median_time >
interval as i64`; otherwise the existing bucket is folded into by
`process_inner_values`. -/
def indexIntervalMapper (previous : Option IntervalBucket) (token currency : Nat)
    (block : BlockCtx) (aggregated : AggregatedData) (intervalSeconds : ℤ) :
    IntervalBucket :=
  match previous with
  | none => newIntervalBucket token currency block aggregated
  | some prev =>
      if block.medianTime - prev.blockMedianTime > intervalSeconds then
        newIntervalBucket token currency block aggregated
      else
        processInnerValues prev aggregated

/-- `invalidate_oracle_interval`, restricted to what happens to the most
recent bucket: `none` means the row is deleted from the store, `some b`
means it is rewritten as `b`.  The source tests
`aggregated.count != 1` for the delete branch and rewrites only when
`count == 1` (in which case the oracle counters divide by
`lastprice.count - 1 = 0`, a `rust_decimal` panic in the source,
embedded as the total division by zero of `ℚ`). -/
def invalidateOracleInterval (prev : IntervalBucket) (aggregated : AggregatedData) :
    Option IntervalBucket :=
  if prev.aggregated.count ≠ 1 then
    none
  else
    let lastprice := prev.aggregated
    let count := lastprice.count - 1
    some
      { prev with
        aggregated :=
          { amount := backwardAggregateValue lastprice.amount aggregated.amount count
            weightage := backwardAggregateNumber lastprice.weightage aggregated.weightage count
            count := count
            oraclesActive :=
              backwardAggregateNumber lastprice.oraclesActive aggregated.oraclesActive
                lastprice.count
            oraclesTotal :=
              backwardAggregateNumber lastprice.oraclesTotal aggregated.oraclesTotal
                lastprice.count } }

/-- The incremental forward mean the specification states for an
in-window bucket update: `mean' = (mean * n + x) / (n + 1)` for bucket
count `n` before the update. -/
def specForwardMean (mean x : ℚ) (n : ℤ) : ℚ :=
  (mean * n + x) / ((n : ℚ) + 1)

/-- The backward mean the specification states for an invalidate on a
bucket of count `n ≥ 2`: `mean' = (mean * n - x) / (n - 1)`. -/
def specBackwardMean (mean x : ℚ) (n : ℤ) : ℚ :=
  (mean * n - x) / ((n : ℚ) - 1)

/-- A concrete one-entry interval bucket: count 1, amount mean 0. -/
def c2PrevBucket : IntervalBucket :=
  { token := 1
    currency := 2
    aggregated := { amount := 0, weightage := 0, count := 1, oraclesActive := 1, oraclesTotal := 1 }
    blockHeight := 1
    blockMedianTime := 0 }

/-- The block absorbing the new aggregate, 500 seconds after the bucket
opened — inside the 900-second (15 minute) window. -/
def c2Block : BlockCtx :=
  { height := 2, time := 500, medianTime := 500 }

/-- The new aggregate being absorbed: amount 1. -/
def c2Agg : AggregatedData :=
  { amount := 1, weightage := 0, oraclesActive := 1, oraclesTotal := 1 }


/-- A concrete interval bucket with count 2 (it has absorbed two
aggregates: amount 1 then amount 5, so its mean is 3). -/
def c3Bucket : IntervalBucket :=
  { token := 1
    currency := 2
    aggregated := { amount := 3, weightage := 2, count := 2, oraclesActive := 1, oraclesTotal := 1 }
    blockHeight := 2
    blockMedianTime := 500 }

/-- A concrete interval bucket with count 1. -/
def c3BucketOne : IntervalBucket :=
  { token := 1
    currency := 2
    aggregated := { amount := 5, weightage := 2, count := 1, oraclesActive := 1, oraclesTotal := 1 }
    blockHeight := 2
    blockMedianTime := 500 }

/-- The most recently absorbed aggregate, amount 5. -/
def c3Agg : AggregatedData :=
  { amount := 5, weightage := 2, oraclesActive := 1, oraclesTotal := 1 }

/-! ### Logs bloom (`evm.rs`, `EVMHandler::logs_bloom`)

`ethereum_types::Bloom` is a 2048-bit filter; `accrue(BloomInput)` ORs
in the three bits `m3_2048(keccak256(input))` selects, and
`contains_input` tests that those bits are all set.  The bit selection
is external library code, so it is a parameter `bits` here; the filter
is embedded as the finite set of its set bits. -/

/-- A log as consumed by `logs_bloom`: an address and a list of topics,
each fed to the bloom as a raw `BloomInput`.  The input type is left
abstract. -/
structure LogEntry (α : Type) where
  address : α
  topics : List α
  deriving DecidableEq

/-- `Bloom::accrue(BloomInput::Raw(input))`: OR the input's bits into
the filter. -/
def bloomAccrue {α : Type} (bits : α → Finset (Fin 2048))
    (bloom : Finset (Fin 2048)) (input : α) : Finset (Fin 2048) :=
  bloom ∪ bits input

/-- `EVMHandler::logs_bloom(logs, bloom)`: accrue each log's address,
then each of its topics, into the mutable bloom. -/
def logsBloom {α : Type} (bits : α → Finset (Fin 2048))
    (logs : List (LogEntry α)) (bloom : Finset (Fin 2048)) : Finset (Fin 2048) :=
  logs.foldl
    (fun b log => log.topics.foldl (bloomAccrue bits) (bloomAccrue bits b log.address))
    bloom

/-- `Bloom::contains_input(input)`: every bit the input selects is set
in the filter. -/
def bloomContainsInput {α : Type} (bits : α → Finset (Fin 2048))
    (bloom : Finset (Fin 2048)) (input : α) : Prop :=
  bits input ⊆ bloom

instance {α : Type} (bits : α → Finset (Fin 2048)) (bloom : Finset (Fin 2048)) (input : α) :
    Decidable (bloomContainsInput bits bloom input) := by
  unfold bloomContainsInput; infer_instance

/-- The OR over `BloomInput` of a list of inputs, the right-hand side of
the specification's bloom equation. -/
def unionBits {α : Type} (bits : α → Finset (Fin 2048)) (inputs : List α) :
    Finset (Fin 2048) :=
  inputs.foldr (fun i acc => bits i ∪ acc) ∅

/-! ### Block store (`storage/block_store.rs`)

Column families are embedded as partial maps; transactions, receipts,
log maps and bytecode are opaque (`Nat`), a transaction is identified
with its hash, and a `HashSet<H256>` of code hashes with a list. -/

/-- The header/body fields of a stored block that the embedded
operations consult. -/
structure EvmBlock where
  number : Nat
  hash : Nat
  parentHash : Nat
  stateRoot : Nat
  transactions : List Nat
  deriving DecidableEq, Repr

/-- Update one key of a partial map (a single-key `put` or, with `none`,
`delete`). -/
def putKey {β : Type} (f : Nat → Option β) (k : Nat) (v : Option β) : Nat → Option β :=
  fun x => if x = k then v else f x

/-- The column families of `BlockStore`. -/
structure BlockStoreState where
  transactions : Nat → Option Nat
  receipts : Nat → Option Nat
  blocks : Nat → Option EvmBlock
  blockMap : Nat → Option Nat
  latestBlockNumber : Option Nat
  addressLogsMap : Nat → Option Nat
  codeMap : Nat → Option Nat
  blockCodeHashes : Nat → Option (List Nat)

/-- `BlockStore::get_block_by_number`. -/
def getBlockByNumber (s : BlockStoreState) (number : Nat) : Option EvmBlock :=
  s.blocks number

/-- `BlockStore::get_block_by_hash`: map the hash to a number, then load
by number. -/
def getBlockByHash (s : BlockStoreState) (blockHash : Nat) : Option EvmBlock :=
  match s.blockMap blockHash with
  | some number => getBlockByNumber s number
  | none => none

/-- `BlockStore::get_latest_block`: read the sentinel latest number,
then load by number. -/
def getLatestBlock (s : BlockStoreState) : Option EvmBlock :=
  match s.latestBlockNumber with
  | some number => getBlockByNumber s number
  | none => none

/-- The loop of `disconnect_latest_block` deleting each of the block's
transactions and receipts by transaction hash. -/
def deleteTxsAndReceipts (txs : List Nat) (s : BlockStoreState) : BlockStoreState :=
  txs.foldl
    (fun st tx =>
      { st with
        transactions := putKey st.transactions tx none
        receipts := putKey st.receipts tx none })
    s

/-- The loop of `disconnect_latest_block` deleting the code entries
recorded for the block. -/
def deleteCodeHashes (hashes : List Nat) (codeMap : Nat → Option Nat) : Nat → Option Nat :=
  hashes.foldl (fun cm codeHash => putKey cm codeHash none) codeMap

/-- The deletes of `disconnect_latest_block` on the block-indexed
columns: `blocks[number]`, `address_logs_map[number]` and then
`block_map[hash]`. -/
def deleteBlockRows (block : EvmBlock) (s : BlockStoreState) : BlockStoreState :=
  { s with
    blocks := putKey s.blocks block.number none
    addressLogsMap := putKey s.addressLogsMap block.number none
    blockMap := putKey s.blockMap block.hash none }

/-- The latest-pointer step of `disconnect_latest_block`: if a block
with the disconnected block's parent hash exists (looked up in the
store as it stands after the deletes), point the latest sentinel at
that block's number. -/
def moveLatestToParent (block : EvmBlock) (s : BlockStoreState) : BlockStoreState :=
  match getBlockByHash s block.parentHash with
  | some parent => { s with latestBlockNumber := some parent.number }
  | none => s

/-- The code garbage-collection step of `disconnect_latest_block`:
delete every code hash recorded in `block_code_hashes[number]` from the
code map, then delete the `block_code_hashes[number]` entry itself. -/
def gcBlockCodes (block : EvmBlock) (s : BlockStoreState) : BlockStoreState :=
  let s' :=
    match s.blockCodeHashes block.number with
    | some hashes => { s with codeMap := deleteCodeHashes hashes s.codeMap }
    | none => s
  { s' with blockCodeHashes := putKey s'.blockCodeHashes block.number none }

/-- `Rollback::disconnect_latest_block`, step for step: load the latest
block (doing nothing when there is none); delete its transactions and
receipts by hash; delete `blocks[number]` and `address_logs_map[number]`;
delete `block_map[hash]`; if a block with the parent hash exists, point
the latest sentinel at that block's number; delete every code hash in
`block_code_hashes[number]` from the code map; finally delete
`block_code_hashes[number]` itself. -/
def disconnectLatestBlock (s : BlockStoreState) : BlockStoreState :=
  match getLatestBlock s with
  | none => s
  | some block =>
      gcBlockCodes block
        (moveLatestToParent block (deleteBlockRows block (deleteTxsAndReceipts block.transactions s)))

/-! ### EVM handler (`evm.rs`)

Account state behind a state root.  The trie-backed backend
(`EVMBackend::from_root` / `EVMBackend::get_account`) is not under the
source fragment. -/

/-- An Ethereum account leaf (`ethereum::Account`). -/
structure AccountRec where
  nonce : Nat
  balance : Nat
  storageRoot : Nat
  codeHash : Nat
  deriving DecidableEq, Repr

/-- Modelled from the spec: `EVMBackend::from_root(state_root, ...)`
followed by `EVMBackend::get_account(address)` — the backend opened at a
state root "exposes account/storage/code reads"; embedded as a total map
from state root and address to the optional account leaf, so opening a
backend never fails on its own. -/
def TrieStoreModel : Type :=
  Nat → Nat → Option AccountRec

/-- Errors of `EVMError` / `EVMBackendError` reachable in the embedded
operations.  `insufficientBalance` carries the
`InsufficientBalance \x7b address, account_balance, amount \x7d` payload. -/
inductive EvmErr where
  | insufficientBalance (address accountBalance amount : Nat)
  | queueNoSuchContext
  | queueAlreadyExists
  deriving DecidableEq, Repr

/-- `EVMHandler::get_account(address, block_number)`: state root of the
block at that number, else of the latest block, else the default root;
then the account lookup under that root. -/
def getAccount (trie : TrieStoreModel) (s : BlockStoreState) (address blockNumber : Nat) :
    Except EvmErr (Option AccountRec) :=
  let stateRoot :=
    (((getBlockByNumber s blockNumber).orElse fun _ => getLatestBlock s).map
        fun b => b.stateRoot).getD 0
  .ok (trie stateRoot address)

/-- `EVMHandler::get_balance`: the account's balance, `0` when the
account is absent. -/
def getBalance (trie : TrieStoreModel) (s : BlockStoreState) (address blockNumber : Nat) :
    Except EvmErr Nat :=
  (getAccount trie s address blockNumber).map fun acc => (acc.map fun a => a.balance).getD 0

/-- `EVMHandler::get_nonce`: the account's nonce, `0` when the account
is absent. -/
def getNonce (trie : TrieStoreModel) (s : BlockStoreState) (address blockNumber : Nat) :
    Except EvmErr Nat :=
  (getAccount trie s address blockNumber).map fun acc => (acc.map fun a => a.nonce).getD 0

/-- A decoded, signature-verified transaction (`SignedTx`), with the
fields the admission claims mention.  Envelope decoding and sender
recovery are external library code and happen before this point. -/
structure SignedTxRec where
  sender : Nat
  nonce : Nat
  gasLimit : Nat
  gasPrice : Nat
  value : Nat
  deriving DecidableEq, Repr

/-- The block number `validate_raw_tx` and `sub_balance` resolve:
the latest block's number, or zero when there is none. -/
def latestBlockNumberOrZero (s : BlockStoreState) : Nat :=
  ((getLatestBlock s).map fun b => b.number).getD 0

/-- `EVMHandler::validate_raw_tx`, after decoding: resolve the latest
block number, read the sender's on-chain nonce there, and reject iff it
differs from the transaction's nonce.  The balance/up-front-cost check
is absent in the source (a `TODO` comment). -/
def validateRawTx (trie : TrieStoreModel) (s : BlockStoreState) (tx : SignedTxRec) :
    Except String SignedTxRec :=
  match getNonce trie s tx.sender (latestBlockNumberOrZero s) with
  | .error _ => .error "Error getting nonce"
  | .ok nonce => if nonce ≠ tx.nonce then .error "Invalid nonce" else .ok tx

/-- A queued transaction (`QueueTx`): a signed EVM transaction or a
bridge balance update (`BridgeTx::EvmIn` / `BridgeTx::EvmOut`). -/
inductive QueueTxRec where
  | signed (tx : SignedTxRec)
  | evmIn (address amount : Nat)
  | evmOut (address amount : Nat)
  deriving DecidableEq, Repr

/-- The queue map: context id to the ordered list of queued transactions
with their native hashes (`none` for a context never created). -/
def QueueMapState : Type :=
  Nat → Option (List (QueueTxRec × Nat))

/-- Modelled from the spec: `TransactionQueueMap::queue_tx` (the
`tx_queue` module is not under the source fragment) — appends the entry
to the context's ordered list; an unknown context id is a queue error
and a duplicate native hash within the same context is rejected. -/
def queueTx (m : QueueMapState) (context : Nat) (tx : QueueTxRec) (hash : Nat) :
    Except EvmErr QueueMapState :=
  match m context with
  | none => .error .queueNoSuchContext
  | some q =>
      if q.any fun e => e.2 = hash then .error .queueAlreadyExists
      else .ok fun c => if c = context then some (q ++ [(tx, hash)]) else m c

/-- `EVMHandler::add_balance`: enqueue a bridge-in unconditionally. -/
def addBalance (m : QueueMapState) (context address amount hash : Nat) :
    Except EvmErr QueueMapState :=
  queueTx m context (.evmIn address amount) hash

/-- `EVMHandler::sub_balance`: read the address's on-chain balance at
the latest block; when it is below the amount, fail with
`InsufficientBalance` (leaving the queue map untouched), otherwise
enqueue a bridge-out. -/
def subBalance (trie : TrieStoreModel) (s : BlockStoreState) (m : QueueMapState)
    (context address amount hash : Nat) : Except EvmErr QueueMapState :=
  match getBalance trie s address (latestBlockNumberOrZero s) with
  | .error e => .error e
  | .ok balance =>
      if balance < amount then .error (.insufficientBalance address balance amount)
      else queueTx m context (.evmOut address amount) hash

/-- The projected balance the specification defines for bridge-out
admission: on-chain balance at the latest block, plus queued bridge-ins
for the address, minus queued bridge-outs for the address. -/
def specProjectedBalance (trie : TrieStoreModel) (s : BlockStoreState)
    (q : List (QueueTxRec × Nat)) (address : Nat) : ℤ :=
  let onChain :=
    match getBalance trie s address (latestBlockNumberOrZero s) with
    | .ok b => (b : ℤ)
    | .error _ => 0
  onChain +
    (q.map fun e =>
      match e.1 with
      | .evmIn a v => if a = address then (v : ℤ) else 0
      | _ => 0).sum -
    (q.map fun e =>
      match e.1 with
      | .evmOut a v => if a = address then (v : ℤ) else 0
      | _ => 0).sum

/-- The number of queued signed transactions of a sender, the
`pending_tx_count_for(sender)` of the specification's nonce rule. -/
def specPendingTxCountFor (q : List (QueueTxRec × Nat)) (sender : Nat) : Nat :=
  (q.filter fun e =>
    match e.1 with
    | .signed tx => tx.sender = sender
    | _ => false).length

/-- The nonces of a sender's queued signed transactions, in queue
order. -/
def specSenderNonces (q : List (QueueTxRec × Nat)) (sender : Nat) : List Nat :=
  q.filterMap fun e =>
    match e.1 with
    | .signed tx => if tx.sender = sender then some tx.nonce else none
    | _ => none

/-! ### `SetOracleData::index` aggregation (`indexer/oracle.rs`)

The per-`(token, currency)` aggregation loop: over the
`oracle_token_currency` rows registered for the pair, skip zero
weightage, look up the oracle's most recent price feed, and accumulate
`count` / `weightage` / `total` when `feed.time - block.time < 3600`.
The `by_key` feed lookup (most recent feed per `(token, currency,
oracle)` key) is a parameter. -/

/-- An `oracle_token_currency` row for a pair (`OracleTokenCurrency`). -/
structure OracleTokenCurrencyRec where
  token : Nat
  currency : Nat
  oracleId : Nat
  weightage : ℤ
  deriving DecidableEq, Repr

/-- The fields of an `OraclePriceFeed` row the aggregation consults:
the i64 fixed-point amount and the i32 feed time. -/
structure PriceFeedRec where
  amount : ℤ
  time : ℤ
  deriving DecidableEq, Repr

/-- The aggregation loop body over one oracle entry: state is
`(total, count, weightage)`. -/
def setOracleDataStep (feedOf : Nat × Nat × Nat → Option PriceFeedRec) (blockTime : ℤ)
    (st : ℚ × ℤ × ℤ) (oracle : OracleTokenCurrencyRec) : ℚ × ℤ × ℤ :=
  if oracle.weightage = 0 then st
  else
    match feedOf (oracle.token, oracle.currency, oracle.oracleId) with
    | none => st
    | some oraclePrice =>
        if oraclePrice.time - blockTime < 3600 then
          (st.1 + ((oraclePrice.amount * oracle.weightage : ℤ) : ℚ), st.2.1 + 1,
            st.2.2 + oracle.weightage)
        else st

/-- The `OraclePriceAggregated` payload `SetOracleData::index` writes
for a pair: fold the loop over the registered rows, then divide the
weighted total by the weightage sum (a `rust_decimal` division-by-zero
panic in the source when no oracle qualifies, embedded as `ℚ`'s `0`) —
`active` is the qualifying count and `total` the number of registered
rows. -/
def setOracleDataAggregate (entries : List OracleTokenCurrencyRec)
    (feedOf : Nat × Nat × Nat → Option PriceFeedRec) (blockTime : ℤ) : AggregatedData :=
  let st := entries.foldl (setOracleDataStep feedOf blockTime) (0, 0, 0)
  { amount := st.1 / (st.2.2 : ℚ)
    weightage := st.2.2
    oraclesActive := st.2.1
    oraclesTotal := (entries.length : ℤ) }

/-- The specification's qualification predicate for an oracle entry:
strictly positive weightage and a most recent feed within 3600 seconds
of the block time. -/
def specOracleQualifies (feedOf : Nat × Nat × Nat → Option PriceFeedRec) (blockTime : ℤ)
    (oracle : OracleTokenCurrencyRec) : Prop :=
  0 < oracle.weightage ∧
    ∃ feed, feedOf (oracle.token, oracle.currency, oracle.oracleId) = some feed ∧
      (feed.time - blockTime).natAbs ≤ 3600

instance (feedOf : Nat × Nat × Nat → Option PriceFeedRec) (blockTime : ℤ)
    (oracle : OracleTokenCurrencyRec) :
    Decidable (specOracleQualifies feedOf blockTime oracle) := by
  unfold specOracleQualifies
  exact @instDecidableAnd _ _ _ (decidable_of_iff
    (∃ feed ∈ (feedOf (oracle.token, oracle.currency, oracle.oracleId)),
      (feed.time - blockTime).natAbs ≤ 3600) (by simp))

/-! ### `UpdateOracle` index and invalidate (`indexer/oracle.rs`)

The oracle, oracle-history and oracle-token-currency stores as partial
maps.  `get_previous_oracle_history_list` reads the `by_key` column —
one row per oracle id holding the id of the most recent history entry —
and resolves it through `by_id`; the generic descending iterator is
restricted here to the queried key, which is exact for stores holding a
single oracle. -/

/-- An `Oracle` row. -/
structure OracleRec where
  ownerAddress : Nat
  weightage : ℤ
  priceFeedPairs : List (Nat × Nat)
  blockHeight : ℤ
  deriving DecidableEq, Repr

/-- An `OracleHistory` row; its id is `(tx id, block height, oracle
id)`. -/
structure OracleHistoryRec where
  id : Nat × ℤ × Nat
  oracleId : Nat
  ownerAddress : Nat
  weightage : ℤ
  priceFeedPairs : List (Nat × Nat)
  blockHeight : ℤ
  deriving DecidableEq, Repr

/-- Update one key of a partial map over an arbitrary key type. -/
def putAt {κ β : Type} [DecidableEq κ] (f : κ → Option β) (k : κ) (v : Option β) :
    κ → Option β :=
  fun x => if x = k then v else f x

/-- The ocean stores `UpdateOracle` touches. -/
structure OceanState where
  oracleById : Nat → Option OracleRec
  oracleHistoryById : Nat × ℤ × Nat → Option OracleHistoryRec
  oracleHistoryByKey : Nat → Option (Nat × ℤ × Nat)
  otcById : Nat × Nat × Nat → Option OracleTokenCurrencyRec
  otcByKey : Nat × Nat × ℤ → Option (Nat × Nat × Nat)

/-- `get_previous_oracle_history_list(services, oracle_id)`: the most
recent history entries for the oracle, resolved `by_key` then `by_id`
(an id whose `by_id` row is missing is an error). -/
def getPreviousOracleHistoryList (s : OceanState) (oracleId : Nat) :
    Except String (List OracleHistoryRec) :=
  match s.oracleHistoryByKey oracleId with
  | none => .ok []
  | some id =>
      match s.oracleHistoryById id with
      | some h => .ok [h]
      | none => .error "Missing oracle previous history index"

/-- The payload of an `UpdateOracle` event: the advertised oracle id,
owner script, weightage and price-feed pairs. -/
structure UpdateOracleMsg where
  oracleId : Nat
  script : Nat
  weightage : ℤ
  priceFeedPairs : List (Nat × Nat)
  deriving DecidableEq, Repr

/-- The indexing context: the transaction's id and the block height. -/
structure IndexCtx where
  txid : Nat
  height : ℤ
  deriving DecidableEq, Repr

/-- `UpdateOracle::index`: write the new oracle under `ctx.tx.txid`;
delete the `oracle_token_currency` rows of each previous history
entry's pairs (`by_id` under the pair and `ctx.tx.txid`, `by_key` under
the pair and the current height); write rows for the new pairs; append
a history entry whose `price_feeds` list is empty in the source. -/
def updateOracleIndex (s : OceanState) (msg : UpdateOracleMsg) (ctx : IndexCtx) :
    Except String OceanState :=
  let oracleId := ctx.txid
  let s :=
    { s with
      oracleById :=
        putAt s.oracleById oracleId
          (some
            { ownerAddress := msg.script
              weightage := msg.weightage
              priceFeedPairs := msg.priceFeedPairs
              blockHeight := ctx.height }) }
  match getPreviousOracleHistoryList s oracleId with
  | .error _ => .error "NotFound Oracle"
  | .ok previous =>
      let s :=
        previous.foldl
          (fun st h =>
            h.priceFeedPairs.foldl
              (fun st pf =>
                let st := { st with otcById := putAt st.otcById (pf.1, pf.2, oracleId) none }
                { st with otcByKey := putAt st.otcByKey (pf.1, pf.2, ctx.height) none })
              st)
          s
      let s :=
        msg.priceFeedPairs.foldl
          (fun st tc =>
            let st :=
              { st with
                otcByKey := putAt st.otcByKey (tc.1, tc.2, ctx.height) (some (tc.1, tc.2, oracleId)) }
            { st with
              otcById :=
                putAt st.otcById (tc.1, tc.2, oracleId)
                  (some
                    { token := tc.1
                      currency := tc.2
                      oracleId := oracleId
                      weightage := msg.weightage }) })
          s
      let histId : Nat × ℤ × Nat := (ctx.txid, ctx.height, oracleId)
      let hist : OracleHistoryRec :=
        { id := histId
          oracleId := ctx.txid
          ownerAddress := msg.script
          weightage := msg.weightage
          priceFeedPairs := []
          blockHeight := ctx.height }
      let s := { s with oracleHistoryByKey := putAt s.oracleHistoryByKey hist.oracleId (some histId) }
      .ok { s with oracleHistoryById := putAt s.oracleHistoryById histId (some hist) }

/-- `UpdateOracle::invalidate`: delete the history entry (`by_key`
under `ctx.tx.txid`, `by_id` under `(ctx.tx.txid, height, ctx.tx.txid)`);
for each advertised pair delete the `by_id` row keyed
`(pair.token, pair.token, self.oracle_id)` — the source uses the token
twice and the message's oracle id; then delete (not restore) the rows of
each previous history entry's pairs. -/
def updateOracleInvalidate (s : OceanState) (msg : UpdateOracleMsg) (ctx : IndexCtx) :
    Except String OceanState :=
  let oracleId := ctx.txid
  let s := { s with oracleHistoryByKey := putAt s.oracleHistoryByKey oracleId none }
  let s :=
    { s with oracleHistoryById := putAt s.oracleHistoryById (oracleId, ctx.height, ctx.txid) none }
  let s :=
    msg.priceFeedPairs.foldl
      (fun st pair => { st with otcById := putAt st.otcById (pair.1, pair.1, msg.oracleId) none })
      s
  match getPreviousOracleHistoryList s oracleId with
  | .error _ => .error "NotFound Oracle"
  | .ok previous =>
      .ok
        (previous.foldl
          (fun st h =>
            h.priceFeedPairs.foldl
              (fun st pf => { st with otcById := putAt st.otcById (pf.1, pf.2, h.oracleId) none })
              st)
          s)

/-! ### Concrete inputs used by the counterexample and witness
theorems -/

/-- A block store with no blocks at all. -/
def emptyStore : BlockStoreState :=
  { transactions := fun _ => none
    receipts := fun _ => none
    blocks := fun _ => none
    blockMap := fun _ => none
    latestBlockNumber := none
    addressLogsMap := fun _ => none
    codeMap := fun _ => none
    blockCodeHashes := fun _ => none }

/-- A world state with no accounts under any root. -/
def emptyTrie : TrieStoreModel :=
  fun _ _ => none

/-- A queue map with one live context (id 1) already holding a queued
bridge-in of 100 for address 5 under native hash 1. -/
def c1Queue : QueueMapState :=
  fun c => if c = 1 then some [(.evmIn 5 100, 1)] else none

/-- An account for address 5 under state root 77: balance 100,
nonce 0. -/
def c5Trie : TrieStoreModel :=
  fun root addr =>
    if root = 77 ∧ addr = 5 then
      some { nonce := 0, balance := 100, storageRoot := 0, codeHash := 0 }
    else none

/-- The single (latest) block of the C5/C6 scenario: number 1,
state root 77. -/
def c5Block : EvmBlock :=
  { number := 1, hash := 10, parentHash := 9, stateRoot := 77, transactions := [] }

/-- A store whose latest block is `c5Block`. -/
def c5Store : BlockStoreState :=
  { emptyStore with
    blocks := fun n => if n = 1 then some c5Block else none
    blockMap := fun h => if h = 10 then some 1 else none
    latestBlockNumber := some 1 }

/-- A signed transaction from address 5 with the correct on-chain nonce
but an up-front cost (`21000 * 1 + 30`) far above the balance 100. -/
def c5Tx : SignedTxRec :=
  { sender := 5, nonce := 0, gasLimit := 21000, gasPrice := 1, value := 30 }

/-- A signed transaction from address 5 with nonce 0 (the on-chain
nonce) and negligible cost. -/
def c6Tx : SignedTxRec :=
  { sender := 5, nonce := 0, gasLimit := 0, gasPrice := 0, value := 0 }

/-- A queue map whose context 1 already holds one queued signed
transaction of sender 5 with nonce 0. -/
def c6Queue : QueueMapState :=
  fun c => if c = 1 then some [(.signed c6Tx, 101)] else none

/-- The context-1 queue contents after admitting a second nonce-0
transaction of the same sender. -/
def c6QueueAfter : List (QueueTxRec × Nat) :=
  match queueTx c6Queue 1 (.signed c6Tx) 102 with
  | .ok m => (m 1).getD []
  | .error _ => []

/-- The single registered oracle entry of the C4 scenario: weightage
1. -/
def c4Entry : OracleTokenCurrencyRec :=
  { token := 1, currency := 2, oracleId := 7, weightage := 1 }

/-- The feed lookup of the C4 scenario: oracle 7's most recent feed for
the pair carries amount 10 at time 0. -/
def c4FeedOf : Nat × Nat × Nat → Option PriceFeedRec :=
  fun k => if k = (1, 2, 7) then some { amount := 10, time := 0 } else none

/-- The block time of the C4 scenario: 10000, so the feed is 10000
seconds old. -/
def c4BlockTime : ℤ := 10000

/-- Parent block of the C7 witness store: number 1, hash 10. -/
def c7Parent : EvmBlock :=
  { number := 1, hash := 10, parentHash := 0, stateRoot := 40, transactions := [] }

/-- Latest block of the C7 witness store: number 2, hash 20, parent
hash 10, two transactions. -/
def c7Tip : EvmBlock :=
  { number := 2, hash := 20, parentHash := 10, stateRoot := 41, transactions := [201, 202] }

/-- A two-block store whose tip is `c7Tip`; block 2 recorded code hash
501 and has a logs map and receipts. -/
def c7Store : BlockStoreState :=
  { transactions := fun k => if k = 201 ∨ k = 202 then some k else none
    receipts := fun k => if k = 201 ∨ k = 202 then some 1 else none
    blocks := fun n => if n = 1 then some c7Parent else if n = 2 then some c7Tip else none
    blockMap := fun h => if h = 10 then some 1 else if h = 20 then some 2 else none
    latestBlockNumber := some 2
    addressLogsMap := fun n => if n = 2 then some 5 else none
    codeMap := fun h => if h = 501 then some 7 else if h = 502 then some 8 else none
    blockCodeHashes := fun n => if n = 2 then some [501] else none }

/-- Bit selection used by the C9 witness: input `n` selects bit
`n % 2048`. -/
def c9Bits : Nat → Finset (Fin 2048) :=
  fun n => {⟨n % 2048, Nat.mod_lt n (by norm_num)⟩}

/-- The logs of the C9 witness: two logs with two topics each. -/
def c9Logs : List (LogEntry Nat) :=
  [{ address := 3, topics := [5, 7] }, { address := 11, topics := [5, 13] }]

/-- The previous oracle of the C8 scenario: weightage 1, advertising
the pair `(1, 2)`, appointed at height 1. -/
def c8OldOracle : OracleRec :=
  { ownerAddress := 0, weightage := 1, priceFeedPairs := [(1, 2)], blockHeight := 1 }

/-- The most recent history entry of the C8 scenario before the update,
recording the pair `(1, 2)`. -/
def c8OldHistory : OracleHistoryRec :=
  { id := (7, 1, 7)
    oracleId := 7
    ownerAddress := 0
    weightage := 1
    priceFeedPairs := [(1, 2)]
    blockHeight := 1 }

/-- The ocean stores before the C8 update: oracle 7 with its history
entry and its `(1, 2)` token-currency row. -/
def c8St0 : OceanState :=
  { oracleById := fun k => if k = 7 then some c8OldOracle else none
    oracleHistoryById := fun k => if k = (7, 1, 7) then some c8OldHistory else none
    oracleHistoryByKey := fun k => if k = 7 then some (7, 1, 7) else none
    otcById := fun k =>
      if k = (1, 2, 7) then some { token := 1, currency := 2, oracleId := 7, weightage := 1 }
      else none
    otcByKey := fun k => if k = (1, 2, 1) then some (1, 2, 7) else none }

/-- The C8 update event: oracle 7 now advertises the pair `(3, 4)` with
weightage 2. -/
def c8Msg : UpdateOracleMsg :=
  { oracleId := 7, script := 0, weightage := 2, priceFeedPairs := [(3, 4)] }

/-- The C8 indexing context: the update transaction's id equals the
oracle id (the source keys everything by `ctx.tx.txid`), at height 2. -/
def c8Ctx : IndexCtx :=
  { txid := 7, height := 2 }

/-- The ocean stores after indexing the C8 update and then invalidating
it (falling back to the initial stores if either step errored, which it
does not). -/
def c8Final : OceanState :=
  match (updateOracleIndex c8St0 c8Msg c8Ctx).bind fun s => updateOracleInvalidate s c8Msg c8Ctx with
  | .ok s => s
  | .error _ => c8St0

end Ain

-- THEOREMS

namespace Ain

/-- Folding the transaction/receipt deletion loop deletes exactly the
listed hashes from the transactions column. -/
theorem deleteTxsAndReceipts_transactions (txs : List Nat) (s : BlockStoreState) (k : Nat) :
    (deleteTxsAndReceipts txs s).transactions k =
      if k ∈ txs then none else s.transactions k := by
  induction txs generalizing s with
  | nil => simp [deleteTxsAndReceipts]
  | cons t ts ih =>
      simp only [deleteTxsAndReceipts, List.foldl_cons] at *
      rw [ih]
      by_cases hk : k = t <;> by_cases hm : k ∈ ts <;>
        simp [putKey, hk, hm, List.mem_cons]

/-- The same loop deletes exactly the listed hashes from the receipts
column. -/
theorem deleteTxsAndReceipts_receipts (txs : List Nat) (s : BlockStoreState) (k : Nat) :
    (deleteTxsAndReceipts txs s).receipts k =
      if k ∈ txs then none else s.receipts k := by
  induction txs generalizing s with
  | nil => simp [deleteTxsAndReceipts]
  | cons t ts ih =>
      simp only [deleteTxsAndReceipts, List.foldl_cons] at *
      rw [ih]
      by_cases hk : k = t <;> by_cases hm : k ∈ ts <;>
        simp [putKey, hk, hm, List.mem_cons]

/-- The transaction/receipt deletion loop leaves every other column
untouched. -/
theorem deleteTxsAndReceipts_other (txs : List Nat) (s : BlockStoreState) :
    (deleteTxsAndReceipts txs s).blocks = s.blocks ∧
      (deleteTxsAndReceipts txs s).blockMap = s.blockMap ∧
      (deleteTxsAndReceipts txs s).latestBlockNumber = s.latestBlockNumber ∧
      (deleteTxsAndReceipts txs s).addressLogsMap = s.addressLogsMap ∧
      (deleteTxsAndReceipts txs s).codeMap = s.codeMap ∧
      (deleteTxsAndReceipts txs s).blockCodeHashes = s.blockCodeHashes := by
  induction txs generalizing s with
  | nil => simp [deleteTxsAndReceipts]
  | cons t ts ih =>
      simpa only [deleteTxsAndReceipts, List.foldl_cons] using
        ih { s with
          transactions := putKey s.transactions t none
          receipts := putKey s.receipts t none }

/-- The code-hash deletion loop deletes exactly the listed hashes. -/
theorem deleteCodeHashes_eq (hashes : List Nat) (cm : Nat → Option Nat) (k : Nat) :
    deleteCodeHashes hashes cm k = if k ∈ hashes then none else cm k := by
  induction hashes generalizing cm with
  | nil => simp [deleteCodeHashes]
  | cons h hs ih =>
      simp only [deleteCodeHashes, List.foldl_cons] at *
      rw [ih]
      by_cases hk : k = h <;> by_cases hm : k ∈ hs <;>
        simp [putKey, hk, hm, List.mem_cons]

/-- The latest-pointer step changes no column other than the latest
sentinel. -/
theorem moveLatestToParent_fields (block : EvmBlock) (s : BlockStoreState) :
    (moveLatestToParent block s).transactions = s.transactions ∧
      (moveLatestToParent block s).receipts = s.receipts ∧
      (moveLatestToParent block s).blocks = s.blocks ∧
      (moveLatestToParent block s).blockMap = s.blockMap ∧
      (moveLatestToParent block s).addressLogsMap = s.addressLogsMap ∧
      (moveLatestToParent block s).codeMap = s.codeMap ∧
      (moveLatestToParent block s).blockCodeHashes = s.blockCodeHashes := by
  unfold moveLatestToParent
  split <;> exact ⟨rfl, rfl, rfl, rfl, rfl, rfl, rfl⟩

/-- When a block with the parent hash exists, the latest-pointer step
points the sentinel at its number. -/
theorem moveLatestToParent_some (block : EvmBlock) (s : BlockStoreState) (parent : EvmBlock)
    (h : getBlockByHash s block.parentHash = some parent) :
    (moveLatestToParent block s).latestBlockNumber = some parent.number := by
  unfold moveLatestToParent
  rw [h]

/-- When no block with the parent hash exists, the latest-pointer step
leaves the sentinel unchanged. -/
theorem moveLatestToParent_none (block : EvmBlock) (s : BlockStoreState)
    (h : getBlockByHash s block.parentHash = none) :
    (moveLatestToParent block s).latestBlockNumber = s.latestBlockNumber := by
  unfold moveLatestToParent
  rw [h]

/-- The code garbage-collection step changes no column other than the
code map and the recorded hashes. -/
theorem gcBlockCodes_fields (block : EvmBlock) (s : BlockStoreState) :
    (gcBlockCodes block s).transactions = s.transactions ∧
      (gcBlockCodes block s).receipts = s.receipts ∧
      (gcBlockCodes block s).blocks = s.blocks ∧
      (gcBlockCodes block s).blockMap = s.blockMap ∧
      (gcBlockCodes block s).latestBlockNumber = s.latestBlockNumber ∧
      (gcBlockCodes block s).addressLogsMap = s.addressLogsMap := by
  unfold gcBlockCodes
  split <;> exact ⟨rfl, rfl, rfl, rfl, rfl, rfl⟩

/-- The code garbage-collection step deletes the block's recorded hash
set. -/
theorem gcBlockCodes_blockCodeHashes (block : EvmBlock) (s : BlockStoreState) :
    (gcBlockCodes block s).blockCodeHashes block.number = none := by
  unfold gcBlockCodes
  split <;> simp [putKey]

/-- The code garbage-collection step deletes each recorded code hash
from the code map. -/
theorem gcBlockCodes_codeMap (block : EvmBlock) (s : BlockStoreState) (hashes : List Nat)
    (h : s.blockCodeHashes block.number = some hashes) {k : Nat} (hk : k ∈ hashes) :
    (gcBlockCodes block s).codeMap k = none := by
  unfold gcBlockCodes
  rw [h]
  simp [deleteCodeHashes_eq, hk]

/-- Accruing a list of inputs into a bloom ORs their bits onto it. -/
theorem foldl_bloomAccrue {α : Type} (bits : α → Finset (Fin 2048)) (xs : List α)
    (b : Finset (Fin 2048)) :
    xs.foldl (bloomAccrue bits) b = b ∪ unionBits bits xs := by
  induction xs generalizing b with
  | nil => simp [unionBits]
  | cons x xs ih =>
      rw [List.foldl_cons, ih]
      simp [unionBits, bloomAccrue, Finset.union_assoc]

/-- The union fold over an arbitrary base splits off the base. -/
theorem foldr_union_base {α : Type} (bits : α → Finset (Fin 2048)) (xs : List α)
    (base : Finset (Fin 2048)) :
    xs.foldr (fun i acc => bits i ∪ acc) base = unionBits bits xs ∪ base := by
  induction xs with
  | nil => simp [unionBits]
  | cons x xs ih => simp [unionBits, ih, Finset.union_assoc]

/-- The OR of a non-empty input list peels its head. -/
theorem unionBits_cons {α : Type} (bits : α → Finset (Fin 2048)) (x : α) (xs : List α) :
    unionBits bits (x :: xs) = bits x ∪ unionBits bits xs :=
  rfl

/-- The OR over an appended input list splits. -/
theorem unionBits_append {α : Type} (bits : α → Finset (Fin 2048)) (xs ys : List α) :
    unionBits bits (xs ++ ys) = unionBits bits xs ∪ unionBits bits ys := by
  simp only [unionBits, List.foldr_append]
  rw [foldr_union_base]
  simp only [unionBits]

/-- `logs_bloom` equals the starting bloom ORed with the bits of every
log's address and topics. -/
theorem logsBloom_eq {α : Type} (bits : α → Finset (Fin 2048)) (logs : List (LogEntry α))
    (b : Finset (Fin 2048)) :
    logsBloom bits logs b = b ∪ unionBits bits (logs.flatMap fun l => l.address :: l.topics) := by
  induction logs generalizing b with
  | nil => simp [logsBloom, unionBits]
  | cons l ls ih =>
      have h1 : logsBloom bits (l :: ls) b =
          logsBloom bits ls (l.topics.foldl (bloomAccrue bits) (bloomAccrue bits b l.address)) :=
        rfl
      rw [h1, ih, foldl_bloomAccrue, List.flatMap_cons, unionBits_append, unionBits_cons]
      simp [bloomAccrue, Finset.union_assoc]

/-- The bits of an input occurring in a list are below the list's OR. -/
theorem subset_unionBits {α : Type} (bits : α → Finset (Fin 2048)) {x : α} {xs : List α}
    (hx : x ∈ xs) : bits x ⊆ unionBits bits xs := by
  induction xs with
  | nil => cases hx
  | cons y ys ih =>
      rcases List.mem_cons.mp hx with h | h
      · subst h
        rw [unionBits_cons]
        exact Finset.subset_union_left
      · refine (ih h).trans ?_
        rw [unionBits_cons]
        exact Finset.subset_union_right

end Ain

/-- C1 (counterexample): the claim says `sub_balance` enqueues iff the
projected balance (on-chain balance plus queued bridge-ins minus queued
bridge-outs) covers the amount.  With on-chain balance 0 and a queued
bridge-in of 100 for address 5, the projected balance is 100 ≥ 50, yet
`sub_balance` of 50 is rejected with
`InsufficientBalance (address 5, account_balance 0, amount 50)`: the
source compares the amount against the on-chain balance at the latest
block only. -/
theorem c1_projected_balance_counterexample :
    Ain.subBalance Ain.emptyTrie Ain.emptyStore Ain.c1Queue 1 5 50 2 =
      .error (.insufficientBalance 5 0 50) ∧
    Ain.specProjectedBalance Ain.emptyTrie Ain.emptyStore ((Ain.c1Queue 1).getD []) 5 = 100 ∧
    (50 : ℤ) ≤ 100 := by
  refine ⟨rfl, ?_, by norm_num⟩
  norm_num [Ain.specProjectedBalance, Ain.c1Queue, Ain.getBalance, Ain.getAccount, Ain.emptyTrie,
    Ain.emptyStore, Ain.latestBlockNumberOrZero, Ain.getLatestBlock, Except.map]

/-- C1 (amended): `sub_balance` enqueues the bridge-out iff the
address's on-chain balance at the latest block — queued bridge-ins and
bridge-outs are not considered — is at least the amount and the
underlying `queue_tx` admits the entry; when the balance is below the
amount it fails with an `InsufficientBalance` error carrying exactly
the address, that on-chain balance and the amount, leaving the queue
map untouched. -/
theorem c1_sub_balance_checks_on_chain_balance (trie : Ain.TrieStoreModel)
    (s : Ain.BlockStoreState) (m : Ain.QueueMapState) (context address amount hash bal : Nat)
    (hbal : Ain.getBalance trie s address (Ain.latestBlockNumberOrZero s) = .ok bal) :
    (bal < amount →
      Ain.subBalance trie s m context address amount hash =
        .error (.insufficientBalance address bal amount)) ∧
    (amount ≤ bal →
      Ain.subBalance trie s m context address amount hash =
        Ain.queueTx m context (.evmOut address amount) hash) := by
  unfold Ain.subBalance
  rw [hbal]
  constructor
  · intro h
    simp [h]
  · intro h
    simp [Nat.not_lt.mpr h]

/-- Witness for C1 at a concrete input: balance 0 is below amount 50,
so the call fails with the structured error. -/
theorem c1_sub_balance_checks_on_chain_balance_witness :
    Ain.subBalance Ain.emptyTrie Ain.emptyStore Ain.c1Queue 1 5 50 3 =
      .error (.insufficientBalance 5 0 50) :=
  (c1_sub_balance_checks_on_chain_balance Ain.emptyTrie Ain.emptyStore Ain.c1Queue 1 5 50 3 0
    rfl).1 (by decide)

/-- C2: for an in-window update of a bucket of count `n`, the claim
states `amount' = (amount * n + x) / (n + 1)` and `count' = n + 1` for
every aggregated scalar.  At the concrete failing input — bucket count
`n = 1`, amount mean `0`, absorbing `x = 1`, 500 s after the bucket
opened (inside the 900 s window) — the code writes amount `1/3`
(it passes the already incremented count `n + 1` to
`forward_aggregate_value`, computing `(mean * (n+1) + x) / (n+2)`),
while the claimed mean is `(0 * 1 + 1) / 2 = 1/2`.  The updated count is
`2` as claimed; only the `amount` and `weightage` scalars diverge. -/
theorem c2_forward_mean_off_by_one :
    (Ain.indexIntervalMapper (some Ain.c2PrevBucket) 1 2 Ain.c2Block Ain.c2Agg
        900).aggregated.amount = 1 / 3 ∧
    (Ain.indexIntervalMapper (some Ain.c2PrevBucket) 1 2 Ain.c2Block Ain.c2Agg
        900).aggregated.count = 2 ∧
    Ain.c2Block.medianTime - Ain.c2PrevBucket.blockMedianTime ≤ 900 ∧
    Ain.specForwardMean Ain.c2PrevBucket.aggregated.amount Ain.c2Agg.amount
        Ain.c2PrevBucket.aggregated.count = 1 / 2 ∧
    (1 : ℚ) / 3 ≠ 1 / 2 := by
  refine ⟨?_, ?_, ?_, ?_, ?_⟩ <;>
    norm_num [Ain.indexIntervalMapper, Ain.processInnerValues, Ain.forwardAggregateValue,
      Ain.specForwardMean, Ain.c2PrevBucket, Ain.c2Block, Ain.c2Agg]

/-- C3: the claim states that invalidating the most recent aggregate
deletes the bucket when its count is 1 and rewrites it with
`mean' = (mean * n - x) / (n - 1)`, `count' = n - 1` when `n ≥ 2`.  The
source has the branch condition inverted (`count != 1` deletes,
`count == 1` rewrites): at the concrete failing input, a bucket of
count 2 is deleted outright (the claim expects a rewrite back to the
count-1 bucket with mean `(3 * 2 - 5) / 1 = 1`), while a bucket of
count 1 is not deleted but rewritten to count 0 (in the source this
branch also divides the oracle counters by `count - 1 = 0`, a
`rust_decimal` panic). -/
theorem c3_invalidate_branch_inverted :
    Ain.invalidateOracleInterval Ain.c3Bucket Ain.c3Agg = none ∧
    Ain.c3Bucket.aggregated.count = 2 ∧
    Ain.specBackwardMean Ain.c3Bucket.aggregated.amount Ain.c3Agg.amount
        Ain.c3Bucket.aggregated.count = 1 ∧
    (Ain.invalidateOracleInterval Ain.c3BucketOne Ain.c3Agg).isSome = true ∧
    (Ain.invalidateOracleInterval Ain.c3BucketOne Ain.c3Agg).map
        (fun b => b.aggregated.count) = some 0 := by
  refine ⟨?_, ?_, ?_, ?_, ?_⟩ <;>
    norm_num [Ain.invalidateOracleInterval, Ain.specBackwardMean, Ain.c3Bucket, Ain.c3BucketOne,
      Ain.c3Agg]

/-- C4: the claim says the written aggregate counts only oracles whose
most recent feed lies within 3600 seconds of the current block time
(and whose weightage is strictly positive).  At the concrete failing
input — one registered oracle of weightage 1 whose most recent feed is
10000 seconds older than the block time — the source still counts it
(`active = 1`, the aggregate takes its amount 10 with weightage sum 1):
the source tests `feed.time - block.time < 3600`, which admits
arbitrarily stale feeds and only rejects feeds more than 3600 seconds
in the future. -/
theorem c4_stale_feed_counted :
    (Ain.setOracleDataAggregate [Ain.c4Entry] Ain.c4FeedOf Ain.c4BlockTime).oraclesActive = 1 ∧
    (Ain.setOracleDataAggregate [Ain.c4Entry] Ain.c4FeedOf Ain.c4BlockTime).weightage = 1 ∧
    (Ain.setOracleDataAggregate [Ain.c4Entry] Ain.c4FeedOf Ain.c4BlockTime).amount = 10 ∧
    (Ain.setOracleDataAggregate [Ain.c4Entry] Ain.c4FeedOf Ain.c4BlockTime).oraclesTotal = 1 ∧
    ¬ Ain.specOracleQualifies Ain.c4FeedOf Ain.c4BlockTime Ain.c4Entry ∧
    3600 < Ain.c4BlockTime - (((Ain.c4FeedOf (1, 2, 7)).map fun f => f.time).getD 0) := by
  refine ⟨by decide, by decide, ?_, by decide, by decide, by decide⟩
  norm_num [Ain.setOracleDataAggregate, Ain.setOracleDataStep, Ain.c4Entry, Ain.c4FeedOf,
    Ain.c4BlockTime]

/-- C5: the claim says a signed transaction is rejected at admission
when its declared up-front cost `gas_limit * gas_price + value` exceeds
the projected balance.  At the concrete failing input — sender balance
100 at the latest block, matching nonce, cost `21000 * 1 + 30` — the
source admits the transaction: the balance precheck is only a `TODO`
comment in `validate_raw_tx`. -/
theorem c5_no_upfront_cost_check :
    Ain.validateRawTx Ain.c5Trie Ain.c5Store Ain.c5Tx = .ok Ain.c5Tx ∧
    Ain.getBalance Ain.c5Trie Ain.c5Store 5 (Ain.latestBlockNumberOrZero Ain.c5Store) =
      .ok 100 ∧
    100 < Ain.c5Tx.gasLimit * Ain.c5Tx.gasPrice + Ain.c5Tx.value := by
  exact ⟨rfl, rfl, by norm_num [Ain.c5Tx]⟩

/-- C6 (counterexample): the claim says validation succeeds only when
`tx.nonce` equals the sender's current on-chain nonce plus the number
of the sender's transactions already pending, and that no admission
sequence can queue non-contiguous or non-increasing nonces.  With one
nonce-0 transaction of sender 5 already queued (on-chain nonce 0), a
second nonce-0 transaction still validates — the source compares
against the on-chain nonce only — and admitting it yields the
per-sender nonce list `[0, 0]`, which is not strictly increasing. -/
theorem c6_nonce_pending_counterexample :
    Ain.validateRawTx Ain.c5Trie Ain.c5Store Ain.c6Tx = .ok Ain.c6Tx ∧
    Ain.getNonce Ain.c5Trie Ain.c5Store 5 (Ain.latestBlockNumberOrZero Ain.c5Store) = .ok 0 ∧
    Ain.specPendingTxCountFor ((Ain.c6Queue 1).getD []) 5 = 1 ∧
    Ain.c6Tx.nonce ≠ 0 + Ain.specPendingTxCountFor ((Ain.c6Queue 1).getD []) 5 ∧
    (Ain.queueTx Ain.c6Queue 1 (.signed Ain.c6Tx) 102).isOk = true ∧
    Ain.specSenderNonces Ain.c6QueueAfter 5 = [0, 0] ∧
    ¬ List.Chain' (· < ·) (Ain.specSenderNonces Ain.c6QueueAfter 5) := by
  refine ⟨rfl, rfl, by decide, by decide, by decide, by decide, ?_⟩
  have h : Ain.specSenderNonces Ain.c6QueueAfter 5 = [0, 0] := by decide
  rw [h]
  simp [List.chain'_cons]

/-- C6 (amended): validation succeeds iff `tx.nonce` equals the
sender's current on-chain nonce at the latest block; transactions
already pending in the queue are not counted, and a nonce mismatch is
rejected with the invalid-nonce error. -/
theorem c6_validate_nonce_onchain_only (trie : Ain.TrieStoreModel) (s : Ain.BlockStoreState)
    (tx : Ain.SignedTxRec) (nonce : Nat)
    (h : Ain.getNonce trie s tx.sender (Ain.latestBlockNumberOrZero s) = .ok nonce) :
    (Ain.validateRawTx trie s tx = .ok tx ↔ nonce = tx.nonce) ∧
    (nonce ≠ tx.nonce → Ain.validateRawTx trie s tx = .error "Invalid nonce") := by
  unfold Ain.validateRawTx
  rw [h]
  constructor
  · constructor
    · intro hok
      by_contra hne
      simp [hne] at hok
    · intro he
      simp [he]
  · intro hne
    simp [hne]

/-- Witness for C6 at a concrete input: the on-chain nonce of sender 5
is 0, so the nonce-0 transaction validates. -/
theorem c6_validate_nonce_onchain_only_witness :
    Ain.validateRawTx Ain.c5Trie Ain.c5Store Ain.c6Tx = .ok Ain.c6Tx :=
  (c6_validate_nonce_onchain_only Ain.c5Trie Ain.c5Store Ain.c6Tx 0 rfl).1.mpr rfl

/-- C8: the claim says running `UpdateOracle::invalidate` after
`UpdateOracle::index` restores the oracle, oracle-history and
oracle-token-currency stores.  At the concrete failing input (oracle 7,
previously weightage 1 advertising pair `(1, 2)`, updated at height 2
to weightage 2 advertising pair `(3, 4)`), the round trip succeeds but:
the oracle row keeps the updated weightage instead of the previous one;
the update's own `(3, 4)` row survives (invalidate deletes the key
`(token, token, oracle)` — `(3, 3, 7)` — instead of
`(3, 4, 7)`); the previous `(1, 2)` row deleted by `index` is never
re-written (invalidate deletes the previous rows again instead of
restoring them); and the `by_key` pointer to the previous history entry
is deleted rather than restored. -/
theorem c8_invalidate_does_not_restore :
    ((Ain.updateOracleIndex Ain.c8St0 Ain.c8Msg Ain.c8Ctx).bind fun s =>
        Ain.updateOracleInvalidate s Ain.c8Msg Ain.c8Ctx).isOk = true ∧
    Ain.c8Final.oracleById 7 ≠ Ain.c8St0.oracleById 7 ∧
    (Ain.c8Final.oracleById 7).map (fun o => o.weightage) = some 2 ∧
    (Ain.c8St0.oracleById 7).map (fun o => o.weightage) = some 1 ∧
    Ain.c8Final.otcById (1, 2, 7) = none ∧
    Ain.c8St0.otcById (1, 2, 7) ≠ none ∧
    Ain.c8Final.otcById (3, 4, 7) ≠ none ∧
    Ain.c8St0.otcById (3, 4, 7) = none ∧
    Ain.c8Final.oracleHistoryByKey 7 = none ∧
    Ain.c8St0.oracleHistoryByKey 7 = some (7, 1, 7) := by
  exact ⟨by decide, by decide, by decide, by decide, by decide, by decide, by decide, by decide,
    by decide, by decide⟩

/-- C10: when no block with the requested number is stored, the
read-only queries answer with `Ok` against the latest block's state
root (or the default root 0 when no latest block exists either), and an
absent account yields `Ok` of no account, balance 0 and nonce 0 rather
than an error. -/
theorem c10_reads_never_fail (trie : Ain.TrieStoreModel) (s : Ain.BlockStoreState)
    (address n : Nat) (habs : Ain.getBlockByNumber s n = none) :
    Ain.getAccount trie s address n =
      .ok (trie (((Ain.getLatestBlock s).map fun b => b.stateRoot).getD 0) address) ∧
    Ain.getBalance trie s address n =
      .ok (((trie (((Ain.getLatestBlock s).map fun b => b.stateRoot).getD 0) address).map
          fun a => a.balance).getD 0) ∧
    Ain.getNonce trie s address n =
      .ok (((trie (((Ain.getLatestBlock s).map fun b => b.stateRoot).getD 0) address).map
          fun a => a.nonce).getD 0) ∧
    (trie (((Ain.getLatestBlock s).map fun b => b.stateRoot).getD 0) address = none →
      Ain.getAccount trie s address n = .ok none ∧
      Ain.getBalance trie s address n = .ok 0 ∧
      Ain.getNonce trie s address n = .ok 0) := by
  refine ⟨?_, ?_, ?_, fun hnone => ⟨?_, ?_, ?_⟩⟩ <;>
    simp [Ain.getAccount, Ain.getBalance, Ain.getNonce, habs, Except.map] <;>
    simp [hnone]

/-- Witness for C10 at a concrete input: the empty store has no block 3
and the empty trie has no account, so every query answers with its
zero default. -/
theorem c10_reads_never_fail_witness :
    Ain.getAccount Ain.emptyTrie Ain.emptyStore 5 3 = .ok none ∧
    Ain.getBalance Ain.emptyTrie Ain.emptyStore 5 3 = .ok 0 ∧
    Ain.getNonce Ain.emptyTrie Ain.emptyStore 5 3 = .ok 0 :=
  (c10_reads_never_fail Ain.emptyTrie Ain.emptyStore 5 3 rfl).2.2.2 rfl

/-- C9: `logs_bloom` accrues exactly each log's address and each of its
topics into the starting bloom, so the result equals the starting bloom
ORed with the bits of every such `BloomInput`, and the bloom-membership
test succeeds for every address and every topic of every log.  The
keccak-based bit selection of `ethereum_types::Bloom` is external
library code and is universally quantified as `bits`. -/
theorem c9_logs_bloom_accrues_all {α : Type} (bits : α → Finset (Fin 2048))
    (logs : List (Ain.LogEntry α)) (bloom : Finset (Fin 2048)) :
    Ain.logsBloom bits logs bloom =
      bloom ∪ Ain.unionBits bits (logs.flatMap fun l => l.address :: l.topics) ∧
    ∀ l ∈ logs,
      Ain.bloomContainsInput bits (Ain.logsBloom bits logs bloom) l.address ∧
      ∀ t ∈ l.topics, Ain.bloomContainsInput bits (Ain.logsBloom bits logs bloom) t := by
  refine ⟨Ain.logsBloom_eq bits logs bloom, fun l hl => ⟨?_, fun t ht => ?_⟩⟩
  · rw [Ain.bloomContainsInput, Ain.logsBloom_eq]
    refine (Ain.subset_unionBits bits ?_).trans Finset.subset_union_right
    exact List.mem_flatMap.mpr ⟨l, hl, by simp⟩
  · rw [Ain.bloomContainsInput, Ain.logsBloom_eq]
    refine (Ain.subset_unionBits bits ?_).trans Finset.subset_union_right
    exact List.mem_flatMap.mpr ⟨l, hl, by simp [ht]⟩

/-- Witness for C9 at a concrete input: with two concrete logs, the
bloom built from the empty filter contains both the first log's topic 5
and its address 3. -/
theorem c9_logs_bloom_accrues_all_witness :
    Ain.bloomContainsInput Ain.c9Bits (Ain.logsBloom Ain.c9Bits Ain.c9Logs ∅) 5 ∧
    Ain.bloomContainsInput Ain.c9Bits (Ain.logsBloom Ain.c9Bits Ain.c9Logs ∅) 3 :=
  ⟨((c9_logs_bloom_accrues_all Ain.c9Bits Ain.c9Logs ∅).2 ⟨3, [5, 7]⟩ (by decide)).2 5
      (by decide),
    ((c9_logs_bloom_accrues_all Ain.c9Bits Ain.c9Logs ∅).2 ⟨3, [5, 7]⟩ (by decide)).1⟩

/-- C7: for every store state with a latest block `b`,
`disconnect_latest_block` deletes `b`'s transactions and receipts by
transaction hash, deletes `blocks[number]`, `address_logs_map[number]`
and `block_map[hash]`, moves the latest pointer to the parent block's
number when a block with `parent_hash` exists (looked up after the
deletes, so for a tip that is neither its own parent nor shares its
number with the parent this is the original store's parent block),
deletes every code hash recorded in `block_code_hashes[number]` from
the code map, deletes the `block_code_hashes[number]` entry, and when
no latest block exists changes nothing. -/
theorem c7_disconnect_latest_block (s : Ain.BlockStoreState) :
    (Ain.getLatestBlock s = none → Ain.disconnectLatestBlock s = s) ∧
    ∀ b, Ain.getLatestBlock s = some b →
      (∀ tx ∈ b.transactions,
        (Ain.disconnectLatestBlock s).transactions tx = none ∧
          (Ain.disconnectLatestBlock s).receipts tx = none) ∧
      (Ain.disconnectLatestBlock s).blocks b.number = none ∧
      (Ain.disconnectLatestBlock s).addressLogsMap b.number = none ∧
      (Ain.disconnectLatestBlock s).blockMap b.hash = none ∧
      (∀ p pb, b.parentHash ≠ b.hash → s.blockMap b.parentHash = some p → p ≠ b.number →
        s.blocks p = some pb →
        (Ain.disconnectLatestBlock s).latestBlockNumber = some pb.number) ∧
      (s.blockMap b.parentHash = none →
        (Ain.disconnectLatestBlock s).latestBlockNumber = s.latestBlockNumber) ∧
      (∀ hashes, s.blockCodeHashes b.number = some hashes →
        ∀ ch ∈ hashes, (Ain.disconnectLatestBlock s).codeMap ch = none) ∧
      (Ain.disconnectLatestBlock s).blockCodeHashes b.number = none := by
  constructor
  · intro h
    unfold Ain.disconnectLatestBlock
    rw [h]
  · intro b hb
    have hD : Ain.disconnectLatestBlock s =
        Ain.gcBlockCodes b
          (Ain.moveLatestToParent b
            (Ain.deleteBlockRows b (Ain.deleteTxsAndReceipts b.transactions s))) := by
      unfold Ain.disconnectLatestBlock
      rw [hb]
    obtain ⟨d1, d2, d3, d4, d5, d6⟩ := Ain.deleteTxsAndReceipts_other b.transactions s
    obtain ⟨m1, m2, m3, m4, m5, m6, m7⟩ :=
      Ain.moveLatestToParent_fields b
        (Ain.deleteBlockRows b (Ain.deleteTxsAndReceipts b.transactions s))
    obtain ⟨g1, g2, g3, g4, g5, g6⟩ :=
      Ain.gcBlockCodes_fields b
        (Ain.moveLatestToParent b
          (Ain.deleteBlockRows b (Ain.deleteTxsAndReceipts b.transactions s)))
    refine ⟨?_, ?_, ?_, ?_, ?_, ?_, ?_, ?_⟩
    · intro tx htx
      rw [hD]
      rw [g1, g2, m1, m2]
      constructor
      · show (Ain.deleteBlockRows b
            (Ain.deleteTxsAndReceipts b.transactions s)).transactions tx = none
        simp [Ain.deleteBlockRows, Ain.deleteTxsAndReceipts_transactions, htx]
      · show (Ain.deleteBlockRows b
            (Ain.deleteTxsAndReceipts b.transactions s)).receipts tx = none
        simp [Ain.deleteBlockRows, Ain.deleteTxsAndReceipts_receipts, htx]
    · rw [hD, g3, m3]
      simp [Ain.deleteBlockRows, Ain.putKey]
    · rw [hD, g6, m5]
      simp [Ain.deleteBlockRows, Ain.putKey]
    · rw [hD, g4, m4]
      simp [Ain.deleteBlockRows, Ain.putKey]
    · intro p pb hne hp hpn hppb
      rw [hD, g5]
      refine Ain.moveLatestToParent_some b _ pb ?_
      simp [Ain.getBlockByHash, Ain.getBlockByNumber, Ain.deleteBlockRows, Ain.putKey, d1, d2,
        hne, hp, hpn, hppb]
    · intro hp
      rw [hD, g5]
      rw [Ain.moveLatestToParent_none b _ ?h]
      case h =>
        by_cases hph : b.parentHash = b.hash <;>
          simp [Ain.getBlockByHash, Ain.deleteBlockRows, Ain.putKey, d2, hp, hph]
      show (Ain.deleteBlockRows b
          (Ain.deleteTxsAndReceipts b.transactions s)).latestBlockNumber = _
      simp [Ain.deleteBlockRows, d3]
    · intro hashes hh ch hch
      rw [hD]
      refine Ain.gcBlockCodes_codeMap b _ hashes ?_ hch
      rw [m7]
      show (Ain.deleteBlockRows b
          (Ain.deleteTxsAndReceipts b.transactions s)).blockCodeHashes b.number = _
      simp [Ain.deleteBlockRows, d6, hh]
    · rw [hD]
      exact Ain.gcBlockCodes_blockCodeHashes b _

/-- Witness for C7 at a concrete two-block store: disconnecting the tip
(number 2, hash 20, transactions 201 and 202, recorded code hash 501)
deletes its rows, moves the latest pointer to the parent's number 1,
and garbage-collects the code entry. -/
theorem c7_disconnect_latest_block_witness :
    (Ain.disconnectLatestBlock Ain.c7Store).transactions 201 = none ∧
    (Ain.disconnectLatestBlock Ain.c7Store).receipts 202 = none ∧
    (Ain.disconnectLatestBlock Ain.c7Store).blocks 2 = none ∧
    (Ain.disconnectLatestBlock Ain.c7Store).addressLogsMap 2 = none ∧
    (Ain.disconnectLatestBlock Ain.c7Store).blockMap 20 = none ∧
    (Ain.disconnectLatestBlock Ain.c7Store).latestBlockNumber = some 1 ∧
    (Ain.disconnectLatestBlock Ain.c7Store).codeMap 501 = none ∧
    (Ain.disconnectLatestBlock Ain.c7Store).blockCodeHashes 2 = none := by
  have h := (c7_disconnect_latest_block Ain.c7Store).2 Ain.c7Tip rfl
  exact ⟨(h.1 201 (by decide)).1, (h.1 202 (by decide)).2, h.2.1, h.2.2.1, h.2.2.2.1,
    h.2.2.2.2.1 1 Ain.c7Parent (by decide) rfl (by decide) rfl,
    h.2.2.2.2.2.2.1 [501] rfl 501 (by decide), h.2.2.2.2.2.2.2⟩
